import Mathlib

/-!
Verification of the `sonos_discovery` crate (`src/lib.rs`), a shallow
embedding of the `Discover` type and its `start` receive loop.

Modelling choices:
* An IP address (`IpAddr` of a reply sender) is abstracted to a `Nat`
  identifier; equality is all the code uses.
* A datagram payload is a byte list (`List Nat`, each entry a byte).
* Wall-clock time is discretised to milliseconds: each loop iteration of
  `start` records the value of `time.elapsed()` (in ms) observed at its
  guard check, and `as_secs()` becomes division by 1000.
* The blocking receive raced against the 500 ms channel timeout is an
  oracle: each iteration's `RecvOutcome` says whether
  `receiver.recv_timeout(500ms)` yielded a datagram or an error
  (timeout or disconnected sender thread), exactly the two arms of the
  `match` at lib.rs:127-130.
* Fallible externals (`Socket::new`, `setsockopt`, `sendto`) are driven
  by explicit success flags / `Except` inputs.
-/

namespace SonosDiscovery

/-- The Unicode replacement character U+FFFD emitted by lossy decoding. -/
def replacementChar : Char := Char.ofNat 0xFFFD

/-- Is `b` a UTF-8 continuation byte (`0x80..=0xBF`)? -/
def isCont (b : Nat) : Bool := 0x80 ≤ b && b ≤ 0xBF

/-- Rust's `String::from_utf8_lossy` (lib.rs:139): decode a byte sequence
as UTF-8, replacing each maximal invalid subpart with U+FFFD.  The
accepted ranges for the first continuation byte of 3- and 4-byte
sequences (`E0 A0..BF`, `ED 80..9F`, `F0 90..BF`, `F4 80..8F`) follow
the standard table, excluding overlongs and surrogates. -/
def utf8DecodeLossy : List Nat → List Char
  | [] => []
  | b :: rest =>
    if b < 0x80 then
      Char.ofNat b :: utf8DecodeLossy rest
    else if 0xC2 ≤ b ∧ b ≤ 0xDF then
      match rest with
      | [] => [replacementChar]
      | c1 :: rest1 =>
        if isCont c1 then
          Char.ofNat ((b - 0xC0) * 0x40 + (c1 - 0x80)) :: utf8DecodeLossy rest1
        else
          replacementChar :: utf8DecodeLossy (c1 :: rest1)
    else if 0xE0 ≤ b ∧ b ≤ 0xEF then
      match rest with
      | [] => [replacementChar]
      | c1 :: rest1 =>
        if (b == 0xE0 && 0xA0 ≤ c1 && c1 ≤ 0xBF) ||
           (b == 0xED && 0x80 ≤ c1 && c1 ≤ 0x9F) ||
           (b != 0xE0 && b != 0xED && isCont c1) then
          match rest1 with
          | [] => [replacementChar]
          | c2 :: rest2 =>
            if isCont c2 then
              Char.ofNat ((b - 0xE0) * 0x1000 + (c1 - 0x80) * 0x40 + (c2 - 0x80)) ::
                utf8DecodeLossy rest2
            else
              replacementChar :: utf8DecodeLossy (c2 :: rest2)
        else
          replacementChar :: utf8DecodeLossy (c1 :: rest1)
    else if 0xF0 ≤ b ∧ b ≤ 0xF4 then
      match rest with
      | [] => [replacementChar]
      | c1 :: rest1 =>
        if (b == 0xF0 && 0x90 ≤ c1 && c1 ≤ 0xBF) ||
           (b == 0xF4 && 0x80 ≤ c1 && c1 ≤ 0x8F) ||
           (b != 0xF0 && b != 0xF4 && isCont c1) then
          match rest1 with
          | [] => [replacementChar]
          | c2 :: rest2 =>
            if isCont c2 then
              match rest2 with
              | [] => [replacementChar]
              | c3 :: rest3 =>
                if isCont c3 then
                  Char.ofNat ((b - 0xF0) * 0x40000 + (c1 - 0x80) * 0x1000 +
                      (c2 - 0x80) * 0x40 + (c3 - 0x80)) :: utf8DecodeLossy rest3
                else
                  replacementChar :: utf8DecodeLossy (c3 :: rest3)
            else
              replacementChar :: utf8DecodeLossy (c2 :: rest2)
        else
          replacementChar :: utf8DecodeLossy (c1 :: rest1)
    else
      replacementChar :: utf8DecodeLossy rest

/-- Does `text` start with `pat`? -/
def beginsWith : List Char → List Char → Bool
  | [], _ => true
  | _ :: _, [] => false
  | p :: ps, t :: ts => p == t && beginsWith ps ts

/-- `str::contains` for a literal pattern: does `pat` occur as a
contiguous subsequence of `text`? -/
def containsSeq (pat : List Char) : List Char → Bool
  | [] => pat.isEmpty
  | t :: ts => beginsWith pat (t :: ts) || containsSeq pat ts

/-- `String::from_utf8_lossy(&data).contains("Sonos")` (lib.rs:139-140). -/
def sonosSig (data : List Nat) : Bool :=
  containsSeq ("Sonos".data) (utf8DecodeLossy data)

/-- The body of one successful receive in the loop of `start`
(lib.rs:134-142): skip empty payloads and already-seen senders, decode
the rest leniently, and push the sender's IP when the body contains
`"Sonos"`. -/
def processDatagram (devices : List Nat) (addr : Nat) (data : List Nat) : List Nat :=
  if data.isEmpty || devices.contains addr then devices
  else if sonosSig data then devices ++ [addr] else devices

/-- What `receiver.recv_timeout(Duration::new(0, 500_000_000))`
(lib.rs:127-130) produced for one attempt: a datagram `(sender, payload)`
or an error (`RecvTimeoutError::Timeout` or `Disconnected`, both mapped
to `continue` by the code). -/
inductive RecvOutcome where
  | timedOut : RecvOutcome
  | received (addr : Nat) (data : List Nat) : RecvOutcome
deriving DecidableEq, Repr

/-- One iteration of the `while` loop of `start`: the elapsed
milliseconds observed at the loop-guard check (lib.rs:114) together with
the receive outcome the iteration would obtain. -/
structure Attempt where
  checkMs : Nat
  outcome : RecvOutcome
deriving DecidableEq, Repr

/-- Observable outcome of the receive loop: the accumulated device list,
how many receive attempts were performed (spawned threads / channel
waits), and the elapsed ms at the guard check that exited the loop
(`none` when the supplied trace ran out first). -/
structure LoopOut where
  devices : List Nat
  attempts : Nat
  exitMs : Option Nat
deriving DecidableEq, Repr

/-- The `while` loop of `start` (lib.rs:114-143).  The guard is
`time.elapsed().as_secs() < timeout && devices.len() < device_count`;
an iteration passing the guard performs one bounded receive attempt and
processes its outcome. -/
def runLoop (timeout deviceCount : Nat) : List Attempt → List Nat → LoopOut
  | [], devices => ⟨devices, 0, none⟩
  | a :: rest, devices =>
    if a.checkMs / 1000 < timeout ∧ devices.length < deviceCount then
      let devices1 :=
        match a.outcome with
        | .timedOut => devices
        | .received addr data => processDatagram devices addr data
      let r := runLoop timeout deviceCount rest devices1
      ⟨r.devices, r.attempts + 1, r.exitMs⟩
    else ⟨devices, 0, some a.checkMs⟩

/-- The receive loop with the device-count guard erased, used to state
what an unbounded device count would mean. -/
def runLoopNoCount (timeout : Nat) : List Attempt → List Nat → LoopOut
  | [], devices => ⟨devices, 0, none⟩
  | a :: rest, devices =>
    if a.checkMs / 1000 < timeout then
      let devices1 :=
        match a.outcome with
        | .timedOut => devices
        | .received addr data => processDatagram devices addr data
      let r := runLoopNoCount timeout rest devices1
      ⟨r.devices, r.attempts + 1, r.exitMs⟩
    else ⟨devices, 0, some a.checkMs⟩

/-- Errors surfaced by the crate (`std::io::Error` kinds actually
constructed or propagated). -/
inductive SockErr where
  | invalidData (msg : String) : SockErr
  | osError : SockErr
deriving DecidableEq, Repr

/-- Observable outcome of `Discover::start` (lib.rs:106-146): the
returned `Result<Vec<IpAddr>>`, the number of times `send_search` was
invoked, and the number of receive attempts performed. -/
structure StartOut where
  result : Except SockErr (List Nat)
  sends : Nat
  attempts : Nat
deriving Repr

/-- `Discover::start` (lib.rs:106-146): apply the defaults
(`timeout.unwrap_or(5)`, `device_count.unwrap_or(u32::MAX as usize)`),
send the search message once, propagate a send failure, and otherwise
run the receive loop on an empty device list.  `send` is the outcome of
`send_search` and `trace` drives the loop's guard clock and receives. -/
def start (timeout : Option Nat) (deviceCount : Option Nat)
    (send : Except SockErr Nat) (trace : List Attempt) : StartOut :=
  let t := timeout.getD 5
  let dc := deviceCount.getD 4294967295
  match send with
  | .error e => ⟨.error e, 1, 0⟩
  | .ok _ =>
    let r := runLoop t dc trace []
    ⟨.ok r.devices, 1, r.attempts⟩

/-- IPv4 socket address, the shape of the parsed
`"239.255.255.250:1900"`. -/
structure SockAddrV4 where
  a : Nat
  b : Nat
  c : Nat
  d : Nat
  port : Nat
deriving DecidableEq, Repr

/-- Parse one decimal IPv4 octet from a character stream: one to three
digits, value at most 255, no leading zero (as in Rust's `Ipv4Addr`
grammar); returns the value and the unconsumed rest. -/
def parseOctet (cs : List Char) : Option (Nat × List Char) :=
  match cs with
  | [] => none
  | c :: rest =>
    if !c.isDigit then none
    else if c = '0' then some (0, rest)
    else
      let d0 := c.toNat - 48
      match rest with
      | c1 :: rest1 =>
        if c1.isDigit then
          let d1 := d0 * 10 + (c1.toNat - 48)
          match rest1 with
          | c2 :: rest2 =>
            if c2.isDigit then
              let d2 := d1 * 10 + (c2.toNat - 48)
              if d2 ≤ 255 then some (d2, rest2) else none
            else some (d1, c2 :: rest2)
          | [] => some (d1, [])
        else some (d0, c1 :: rest1)
      | [] => some (d0, [])

/-- Expect character `c` at the head of the stream. -/
def parseChar (c : Char) (cs : List Char) : Option (List Char) :=
  match cs with
  | [] => none
  | x :: rest => if x = c then some rest else none

/-- Parse a decimal port: one or more digits consuming the whole rest of
the stream, value at most 65535. -/
def parsePort (cs : List Char) : Option Nat :=
  if cs.isEmpty || cs.any (fun c => !c.isDigit) then none
  else
    let v := cs.foldl (fun acc c => acc * 10 + (c.toNat - 48)) 0
    if v ≤ 65535 then some v else none

/-- `SocketAddr::from_str` (lib.rs:37) restricted to the IPv4
`"a.b.c.d:port"` grammar; the IPv6 bracket forms of the standard parser
are irrelevant to the addresses this crate handles and are omitted
(they never match a dotted-quad or a plain word). -/
def parseSocketAddr (s : String) : Option SockAddrV4 := do
  let cs := s.data
  let (a, cs) ← parseOctet cs
  let cs ← parseChar '.' cs
  let (b, cs) ← parseOctet cs
  let cs ← parseChar '.' cs
  let (c, cs) ← parseOctet cs
  let cs ← parseChar '.' cs
  let (d, cs) ← parseOctet cs
  let cs ← parseChar ':' cs
  let port ← parsePort cs
  pure ⟨a, b, c, d, port⟩

/-- The model of the `socket::Socket` handle: the arguments it was
created with and the options applied to it. -/
structure Socket where
  family : Nat
  stype : Nat
  protocol : Nat
  options : List (Nat × Nat × Nat)
deriving DecidableEq, Repr

/-- `AF_INET` (symbolic value). -/
def AF_INET : Nat := 2
/-- `SOCK_DGRAM` (symbolic value). -/
def SOCK_DGRAM : Nat := 2
/-- `IPPROTO_IP` (symbolic value). -/
def IPPROTO_IP : Nat := 0
/-- `IP_MULTICAST_TTL` (symbolic value). -/
def IP_MULTICAST_TTL : Nat := 33

/-- Success flags for the fallible OS calls made during construction. -/
structure SockEnv where
  newOk : Bool
  setsockoptOk : Bool
deriving DecidableEq, Repr

/-- `Discover::create_socket` (lib.rs:65-73): create the socket, apply
each option, fail if either step fails.  The second component counts
how many sockets `Socket::new` actually created. -/
def create_socket (env : SockEnv) (family stype protocol : Nat)
    (options : List (Nat × Nat × Nat)) : Except SockErr Socket × Nat :=
  if env.newOk then
    if env.setsockoptOk then (.ok ⟨family, stype, protocol, options⟩, 1)
    else (.error .osError, 1)
  else (.error .osError, 0)

/-- `Discover::create_default_socket` (lib.rs:56-63):
`AF_INET`/`SOCK_DGRAM`/auto protocol with multicast TTL 4. -/
def create_default_socket (env : SockEnv) : Except SockErr Socket × Nat :=
  create_socket env AF_INET SOCK_DGRAM 0 [(IPPROTO_IP, IP_MULTICAST_TTL, 4)]

/-- The `Discover` session: multicast address plus socket
(lib.rs:18-24). -/
structure Discover where
  multicast_addr : SockAddrV4
  socket : Socket
deriving DecidableEq, Repr

/-- `Discover::with_address` (lib.rs:45-51): open the default socket and
pair it with the given address.  Second component counts created
sockets. -/
def with_address (address : SockAddrV4) (env : SockEnv) :
    Except SockErr Discover × Nat :=
  match create_default_socket env with
  | (.ok s, n) => (.ok ⟨address, s⟩, n)
  | (.error e, n) => (.error e, n)

/-- The construction flow of `Discover::new` (lib.rs:36-42) with the
address string as a parameter: parse the socket address, mapping a parse
failure to `ErrorKind::InvalidData` with message
`"Couldn't parse socket address"` before any socket is created, then
delegate to `with_address`. -/
def newFromStr (s : String) (env : SockEnv) : Except SockErr Discover × Nat :=
  match parseSocketAddr s with
  | none => (.error (.invalidData "Couldn't parse socket address"), 0)
  | some addr => with_address addr env

/-- `Discover::new` (lib.rs:36-42): parse the default multicast address
`"239.255.255.250:1900"` and construct. -/
def new (env : SockEnv) : Except SockErr Discover × Nat :=
  newFromStr "239.255.255.250:1900" env

/-- The `player_search` message sent by `Discover::send_search`
(lib.rs:86-90); source newlines are LF. -/
def player_search : String :=
  "M-SEARCH * HTTP/1.1\nHOST: 239.255.255.250:1900\nMAN: \"ssdp:discover\"\nMX: 1\nST: urn:schemas-upnp-org:device:ZonePlayer:1"

/-- The bytes of the search message (`br#"..."#` is a byte literal and
the message is pure ASCII). -/
def player_search_bytes : List Nat := player_search.data.map Char.toNat

/-- Trim on a character list: drop whitespace from both ends.  Used to
state that the search message carries no leading or trailing
whitespace. -/
def trimChars (cs : List Char) : List Char :=
  ((cs.dropWhile Char.isWhitespace).reverse.dropWhile Char.isWhitespace).reverse

/-! ## Helper lemmas about the loop body -/

lemma append_singleton_ne (ds : List Nat) (a : Nat) : ds ++ [a] ≠ ds := by
  simp

lemma sonosSig_nil : sonosSig [] = false := by decide

lemma processDatagram_skip (ds : List Nat) (a : Nat) (d : List Nat)
    (h : (d.isEmpty || ds.contains a) = true) :
    processDatagram ds a d = ds := by
  simp only [processDatagram, h, if_true]

lemma processDatagram_push (ds : List Nat) (a : Nat) (d : List Nat)
    (h1 : (d.isEmpty || ds.contains a) = false) (h2 : sonosSig d = true) :
    processDatagram ds a d = ds ++ [a] := by
  simp only [processDatagram, h1, h2, if_true, Bool.false_eq_true, if_false]

lemma skipCond_true_iff (ds : List Nat) (a : Nat) (d : List Nat) :
    (d.isEmpty || ds.contains a) = true ↔ d = [] ∨ a ∈ ds := by
  simp

lemma skipCond_false_iff (ds : List Nat) (a : Nat) (d : List Nat) :
    (d.isEmpty || ds.contains a) = false ↔ d ≠ [] ∧ a ∉ ds := by
  simp

lemma processDatagram_nosig (ds : List Nat) (a : Nat) (d : List Nat)
    (h2 : sonosSig d = false) : processDatagram ds a d = ds := by
  rcases Bool.eq_false_or_eq_true (d.isEmpty || ds.contains a) with hc | hc
  · exact processDatagram_skip ds a d hc
  · simp only [processDatagram, hc, h2, Bool.false_eq_true, if_false]

lemma processDatagram_eq_or (ds : List Nat) (a : Nat) (d : List Nat) :
    processDatagram ds a d = ds ∨ processDatagram ds a d = ds ++ [a] := by
  rcases Bool.eq_false_or_eq_true (d.isEmpty || ds.contains a) with hc | hc
  · exact Or.inl (processDatagram_skip ds a d hc)
  · rcases Bool.eq_false_or_eq_true (sonosSig d) with hs | hs
    · exact Or.inr (processDatagram_push ds a d hc hs)
    · exact Or.inl (processDatagram_nosig ds a d hs)

lemma processDatagram_of_mem (ds : List Nat) (a : Nat) (d : List Nat)
    (h : a ∈ ds) : processDatagram ds a d = ds := by
  exact processDatagram_skip ds a d ((skipCond_true_iff ds a d).mpr (Or.inr h))

lemma processDatagram_length_le (ds : List Nat) (a : Nat) (d : List Nat) :
    (processDatagram ds a d).length ≤ ds.length + 1 := by
  rcases processDatagram_eq_or ds a d with h | h <;> rw [h] <;> simp

lemma processDatagram_nodup (ds : List Nat) (a : Nat) (d : List Nat)
    (h : ds.Nodup) : (processDatagram ds a d).Nodup := by
  rcases Bool.eq_false_or_eq_true (d.isEmpty || ds.contains a) with hc | hc
  · rw [processDatagram_skip ds a d hc]; exact h
  · have hmem : a ∉ ds := ((skipCond_false_iff ds a d).mp hc).2
    rcases Bool.eq_false_or_eq_true (sonosSig d) with hs | hs
    · rw [processDatagram_push ds a d hc hs]
      simp [List.nodup_append, h, hmem]
    · rw [processDatagram_nosig ds a d hs]; exact h

lemma mem_processDatagram (ds : List Nat) (a : Nat) (d : List Nat) (x : Nat)
    (h : x ∈ processDatagram ds a d) :
    x ∈ ds ∨ (x = a ∧ sonosSig d = true) := by
  rcases processDatagram_eq_or ds a d with he | he
  · exact Or.inl (he ▸ h)
  · rw [he] at h
    rcases (by simpa using h : x ∈ ds ∨ x = a) with hx | hx
    · exact Or.inl hx
    · rcases Bool.eq_false_or_eq_true (sonosSig d) with hs | hs
      · exact Or.inr ⟨hx, hs⟩
      · rw [processDatagram_nosig ds a d hs] at he
        exact absurd he.symm (append_singleton_ne ds a)

lemma sonosSig_true_ne_nil (d : List Nat) (h : sonosSig d = true) : d ≠ [] := by
  intro hnil
  rw [hnil, sonosSig_nil] at h
  exact Bool.false_ne_true h

/-- The device list produced from `ds1` by one outcome step. -/
def stepDevices (ds : List Nat) : RecvOutcome → List Nat
  | .timedOut => ds
  | .received addr data => processDatagram ds addr data

lemma runLoop_cons (t dc : Nat) (a : Attempt) (rest : List Attempt)
    (ds : List Nat) (h : a.checkMs / 1000 < t ∧ ds.length < dc) :
    runLoop t dc (a :: rest) ds =
      ⟨(runLoop t dc rest (stepDevices ds a.outcome)).devices,
       (runLoop t dc rest (stepDevices ds a.outcome)).attempts + 1,
       (runLoop t dc rest (stepDevices ds a.outcome)).exitMs⟩ := by
  obtain ⟨ms, o⟩ := a
  show (if ms / 1000 < t ∧ ds.length < dc then _ else _) = _
  rw [if_pos h]
  cases o <;> rfl

lemma runLoop_cons_stop (t dc : Nat) (a : Attempt) (rest : List Attempt)
    (ds : List Nat) (h : ¬(a.checkMs / 1000 < t ∧ ds.length < dc)) :
    runLoop t dc (a :: rest) ds = ⟨ds, 0, some a.checkMs⟩ := by
  obtain ⟨ms, o⟩ := a
  show (if ms / 1000 < t ∧ ds.length < dc then _ else _) = _
  rw [if_neg h]

lemma stepDevices_length_le (ds : List Nat) (o : RecvOutcome) :
    (stepDevices ds o).length ≤ ds.length + 1 := by
  cases o with
  | timedOut => simp [stepDevices]
  | received addr data => exact processDatagram_length_le ds addr data

lemma runLoop_devices_nodup (t dc : Nat) :
    ∀ (tr : List Attempt) (ds : List Nat), ds.Nodup →
      (runLoop t dc tr ds).devices.Nodup := by
  intro tr
  induction tr with
  | nil => intro ds h; simpa [runLoop] using h
  | cons a rest ih =>
    intro ds h
    by_cases hg : a.checkMs / 1000 < t ∧ ds.length < dc
    · rw [runLoop_cons t dc a rest ds hg]
      apply ih
      cases a.outcome with
      | timedOut => simpa [stepDevices] using h
      | received addr data => exact processDatagram_nodup ds addr data h
    · rw [runLoop_cons_stop t dc a rest ds hg]
      exact h

lemma runLoop_devices_length_le (t dc : Nat) :
    ∀ (tr : List Attempt) (ds : List Nat), ds.length ≤ dc →
      (runLoop t dc tr ds).devices.length ≤ dc := by
  intro tr
  induction tr with
  | nil => intro ds h; simpa [runLoop] using h
  | cons a rest ih =>
    intro ds h
    by_cases hg : a.checkMs / 1000 < t ∧ ds.length < dc
    · rw [runLoop_cons t dc a rest ds hg]
      apply ih
      have := stepDevices_length_le ds a.outcome
      omega
    · rw [runLoop_cons_stop t dc a rest ds hg]
      exact h

lemma runLoop_devices_mem (t dc : Nat) :
    ∀ (tr : List Attempt) (ds : List Nat) (x : Nat),
      x ∈ (runLoop t dc tr ds).devices →
      x ∈ ds ∨ ∃ a ∈ tr, ∃ data,
        a.outcome = RecvOutcome.received x data ∧ sonosSig data = true := by
  intro tr
  induction tr with
  | nil => intro ds x h; exact Or.inl (by simpa [runLoop] using h)
  | cons a rest ih =>
    intro ds x h
    by_cases hg : a.checkMs / 1000 < t ∧ ds.length < dc
    · rw [runLoop_cons t dc a rest ds hg] at h
      rcases ih (stepDevices ds a.outcome) x h with hx | ⟨b, hb, data, hout, hsig⟩
      · cases hao : a.outcome with
        | timedOut =>
          rw [hao] at hx
          exact Or.inl (by simpa [stepDevices] using hx)
        | received addr d =>
          rw [hao] at hx
          rcases mem_processDatagram ds addr d x (by simpa [stepDevices] using hx)
            with hx2 | ⟨hxa, hsig⟩
          · exact Or.inl hx2
          · exact Or.inr ⟨a, by simp, d, by rw [hao, hxa], hsig⟩
      · exact Or.inr ⟨b, by simp [hb], data, hout, hsig⟩
    · rw [runLoop_cons_stop t dc a rest ds hg] at h
      exact Or.inl h

/-! ## Claim theorems -/

/-- C1: a received datagram's sender is appended by the loop body iff the
payload, decoded as lossy UTF-8, contains the substring `"Sonos"` (stated
for a sender not already collected, duplicates being the subject of the
dedup invariant); a payload without the signature never changes the
device list, and globally every address in `start`'s result was the
sender of a qualifying datagram. -/
theorem discover_collect_iff_sonos :
    (∀ (ds : List Nat) (addr : Nat) (data : List Nat), addr ∉ ds →
      (processDatagram ds addr data = ds ++ [addr] ↔ sonosSig data = true)) ∧
    (∀ (ds : List Nat) (addr : Nat) (data : List Nat), sonosSig data = false →
      processDatagram ds addr data = ds) ∧
    (∀ (t dc : Nat) (tr : List Attempt) (addr : Nat),
      addr ∈ (runLoop t dc tr []).devices →
      ∃ a ∈ tr, ∃ data,
        a.outcome = RecvOutcome.received addr data ∧ sonosSig data = true) := by
  refine ⟨?_, ?_, ?_⟩
  · intro ds addr data hmem
    constructor
    · intro happ
      by_contra hsig
      have hsig2 : sonosSig data = false := by
        cases hs : sonosSig data
        · rfl
        · exact absurd hs hsig
      rw [processDatagram_nosig ds addr data hsig2] at happ
      exact append_singleton_ne ds addr happ.symm
    · intro hsig
      have hne : data ≠ [] := sonosSig_true_ne_nil data hsig
      have hempty : data.isEmpty = false := by
        cases data
        · exact absurd rfl hne
        · rfl
      have hc : ds.contains addr = false := by
        cases hcc : ds.contains addr
        · rfl
        · exact absurd (by simpa using hcc) hmem
      exact processDatagram_push ds addr data (by rw [hempty, hc]; rfl) hsig
  · intro ds addr data hsig
    exact processDatagram_nosig ds addr data hsig
  · intro t dc tr addr h
    rcases runLoop_devices_mem t dc tr [] addr h with hx | hx
    · simp at hx
    · exact hx

/-- C1 witness: a fresh sender with payload `"xSonosx"` is appended; the
signature check evaluates to `true` on those bytes. -/
theorem discover_collect_iff_sonos_witness :
    processDatagram [9] 5 [120, 83, 111, 110, 111, 115, 120] = [9] ++ [5] ∧
    processDatagram [9] 5 [72, 84, 84, 80] = [9] :=
  ⟨(discover_collect_iff_sonos.1 [9] 5 [120, 83, 111, 110, 111, 115, 120]
      (by decide)).mpr (by decide),
   discover_collect_iff_sonos.2.1 [9] 5 [72, 84, 84, 80] (by decide)⟩

/-- C2: the device list returned by the receive loop never contains an
address twice, and a datagram whose sender is already collected leaves
the device list unchanged (a no-op), however many qualifying replies
that sender produces. -/
theorem discover_result_nodup :
    (∀ (t dc : Nat) (tr : List Attempt), (runLoop t dc tr []).devices.Nodup) ∧
    (∀ (ds : List Nat) (addr : Nat) (data : List Nat), addr ∈ ds →
      processDatagram ds addr data = ds) := by
  constructor
  · intro t dc tr
    exact runLoop_devices_nodup t dc tr [] (by simp)
  · exact processDatagram_of_mem

/-- C2 witness: a second qualifying reply from address 5 is a no-op. -/
theorem discover_result_nodup_witness :
    processDatagram [5] 5 [83, 111, 110, 111, 115] = [5] :=
  discover_result_nodup.2 [5] 5 [83, 111, 110, 111, 115] (by decide)

/-- C3: with a device-count bound `K`, any list returned by `start` has
length at most `K`, and once the accumulated list has reached `K`
entries the loop performs no further receive attempt: it stops at the
very next guard check, whatever receives the rest of the run would have
produced. -/
theorem discover_count_bound :
    (∀ (t : Option Nat) (K : Nat) (s : Except SockErr Nat)
       (tr : List Attempt) (ds : List Nat),
      (start t (some K) s tr).result = Except.ok ds → ds.length ≤ K) ∧
    (∀ (t K : Nat) (a : Attempt) (rest : List Attempt) (ds : List Nat),
      K ≤ ds.length →
      runLoop t K (a :: rest) ds = ⟨ds, 0, some a.checkMs⟩) := by
  constructor
  · intro t K s tr ds h
    cases s with
    | error e => simp [start] at h
    | ok n =>
      simp only [start, Option.getD_some] at h
      have hds : ds = (runLoop (t.getD 5) K tr []).devices := by
        exact (Except.ok.injEq _ _).mp h.symm
      rw [hds]
      exact runLoop_devices_length_le (t.getD 5) K tr [] (by simp)
  · intro t K a rest ds h
    exact runLoop_cons_stop t K a rest ds (by omega)

/-- C3 witness: with bound 1 already reached, the loop stops immediately
even though a further qualifying reply is pending; and a concrete
`start` run returns a list of length at most 1. -/
theorem discover_count_bound_witness :
    runLoop 5 1 [⟨0, RecvOutcome.received 7 [83, 111, 110, 111, 115]⟩] [3] =
      ⟨[3], 0, some 0⟩ ∧
    ([3] : List Nat).length ≤ 1 :=
  ⟨discover_count_bound.2 5 1 ⟨0, RecvOutcome.received 7 [83, 111, 110, 111, 115]⟩ [] [3]
      (by decide),
   discover_count_bound.1 (some 5) 1 (Except.ok 10)
      [⟨0, RecvOutcome.received 3 [83, 111, 110, 111, 115]⟩] [3] (by rfl)⟩

/-- Successive guard checks happen in order and at most one per-attempt
timeout (500 ms) apart: the coordinator waits at most 500 ms on the
channel before re-evaluating the guard. -/
def stepOk (a b : Attempt) : Prop :=
  a.checkMs ≤ b.checkMs ∧ b.checkMs ≤ a.checkMs + 500

lemma runLoop_exit_bounds (t dc : Nat) :
    ∀ (tr : List Attempt) (ds : List Nat),
      List.Chain' stepOk tr →
      (∀ a, tr.head? = some a → a.checkMs < 1000 * t + 500) →
      ∀ m, (runLoop t dc tr ds).exitMs = some m →
        (runLoop t dc tr ds).devices.length < dc →
        1000 * t ≤ m ∧ m < 1000 * t + 500 := by
  intro tr
  induction tr with
  | nil =>
    intro ds _ _ m hm _
    simp [runLoop] at hm
  | cons a rest ih =>
    intro ds hchain hhead m hm hlen
    by_cases hg : a.checkMs / 1000 < t ∧ ds.length < dc
    · rw [runLoop_cons t dc a rest ds hg] at hm hlen
      refine ih (stepDevices ds a.outcome) (List.Chain'.tail hchain) ?_ m hm hlen
      intro b hb
      cases rest with
      | nil => simp at hb
      | cons b0 rest0 =>
        have hb0 : b0 = b := by
          have : some b0 = some b := hb
          exact Option.some.inj this
        have hrel : stepOk a b0 := (List.chain'_cons.mp hchain).1
        have ha : a.checkMs < 1000 * t := by
          have := hg.1
          omega
        have := hrel.2
        rw [hb0] at this
        omega
    · rw [runLoop_cons_stop t dc a rest ds hg] at hm hlen
      have hm2 : some a.checkMs = some m := hm
      have hma : m = a.checkMs := (Option.some.inj hm2).symm
      have hlen2 : ds.length < dc := hlen
      have htime : ¬ a.checkMs / 1000 < t := by
        intro hc
        exact hg ⟨hc, hlen2⟩
      have hup : a.checkMs < 1000 * t + 500 := hhead a rfl
      constructor
      · omega
      · omega

/-- C4: modelling each attempt's guard check as happening at most one
per-attempt timeout (500 ms) after the previous one, a run of the loop
that exits with the device count still unmet exits at an elapsed time of
at least `T` seconds and strictly less than `T` seconds plus 500 ms: the
deadline is re-checked between attempts and each attempt waits at most
500 ms on the receive channel. -/
theorem discover_deadline_soft_bound (t dc : Nat) (tr : List Attempt) (m : Nat)
    (hhead : ∀ a, tr.head? = some a → a.checkMs = 0)
    (hchain : List.Chain' stepOk tr)
    (hexit : (runLoop t dc tr []).exitMs = some m)
    (hcount : (runLoop t dc tr []).devices.length < dc) :
    1000 * t ≤ m ∧ m < 1000 * t + 500 := by
  refine runLoop_exit_bounds t dc tr [] hchain ?_ m hexit hcount
  intro a ha
  have := hhead a ha
  omega

/-- C4 witness: a three-attempt run with 500 ms waits against a
1-second deadline exits at 1000 ms, within `[1000, 1500)`. -/
theorem discover_deadline_soft_bound_witness :
    1000 * 1 ≤ 1000 ∧ 1000 < 1000 * 1 + 500 :=
  discover_deadline_soft_bound 1 5
    [⟨0, RecvOutcome.timedOut⟩, ⟨500, RecvOutcome.timedOut⟩,
     ⟨1000, RecvOutcome.timedOut⟩] 1000
    (by intro a ha; cases ha; rfl)
    (by constructor
        · exact ⟨by decide, by decide⟩
        · constructor
          · exact ⟨by decide, by decide⟩
          · exact List.chain'_singleton _)
    (by rfl) (by decide)

/-- C5: a failed initial send makes `start` return that error with no
receive attempt performed and no addresses; a successful send always
yields `Ok` with the collector's list (no hard failure can arise later);
and an attempt whose channel wait fails (timeout or receive error)
contributes nothing to the device list. -/
theorem discover_send_failure_fatal :
    (∀ (t dc : Option Nat) (e : SockErr) (tr : List Attempt),
      start t dc (Except.error e) tr = ⟨Except.error e, 1, 0⟩) ∧
    (∀ (t dc : Option Nat) (n : Nat) (tr : List Attempt),
      (start t dc (Except.ok n) tr).result =
        Except.ok ((runLoop (t.getD 5) (dc.getD 4294967295) tr []).devices)) ∧
    (∀ (t dc m : Nat) (rest : List Attempt) (ds : List Nat),
      m / 1000 < t → ds.length < dc →
      (runLoop t dc (⟨m, RecvOutcome.timedOut⟩ :: rest) ds).devices =
        (runLoop t dc rest ds).devices) := by
  refine ⟨?_, ?_, ?_⟩
  · intro t dc e tr
    rfl
  · intro t dc n tr
    rfl
  · intro t dc m rest ds h1 h2
    rw [runLoop_cons t dc ⟨m, RecvOutcome.timedOut⟩ rest ds ⟨h1, h2⟩]
    rfl

/-- C5 witness: a timed-out attempt leaves the device list exactly as a
run without it. -/
theorem discover_send_failure_fatal_witness :
    (runLoop 5 3 [⟨0, RecvOutcome.timedOut⟩] []).devices =
      (runLoop 5 3 [] []).devices :=
  discover_send_failure_fatal.2.2 5 3 0 [] [] (by decide) (by decide)

lemma runLoopNoCount_cons (t : Nat) (a : Attempt) (rest : List Attempt)
    (ds : List Nat) (h : a.checkMs / 1000 < t) :
    runLoopNoCount t (a :: rest) ds =
      ⟨(runLoopNoCount t rest (stepDevices ds a.outcome)).devices,
       (runLoopNoCount t rest (stepDevices ds a.outcome)).attempts + 1,
       (runLoopNoCount t rest (stepDevices ds a.outcome)).exitMs⟩ := by
  obtain ⟨ms, o⟩ := a
  show (if ms / 1000 < t then _ else _) = _
  rw [if_pos h]
  cases o <;> rfl

lemma runLoopNoCount_cons_stop (t : Nat) (a : Attempt) (rest : List Attempt)
    (ds : List Nat) (h : ¬ a.checkMs / 1000 < t) :
    runLoopNoCount t (a :: rest) ds = ⟨ds, 0, some a.checkMs⟩ := by
  obtain ⟨ms, o⟩ := a
  show (if ms / 1000 < t then _ else _) = _
  rw [if_neg h]

lemma stepDevices_length_ge (ds : List Nat) (o : RecvOutcome) :
    ds.length ≤ (stepDevices ds o).length := by
  cases o with
  | timedOut => simp [stepDevices]
  | received addr data =>
    rcases processDatagram_eq_or ds addr data with h | h <;>
      simp [stepDevices, h]

lemma runLoop_eq_noCount (t : Nat) :
    ∀ (tr : List Attempt) (ds : List Nat),
      tr.length + ds.length ≤ 4294967295 →
      runLoop t 4294967295 tr ds = runLoopNoCount t tr ds := by
  intro tr
  induction tr with
  | nil => intro ds _; rfl
  | cons a rest ih =>
    intro ds h
    have hlen : ds.length < 4294967295 := by
      have : rest.length + 1 + ds.length ≤ 4294967295 := by
        simpa [List.length_cons] using h
      omega
    by_cases ht : a.checkMs / 1000 < t
    · rw [runLoop_cons t 4294967295 a rest ds ⟨ht, hlen⟩,
          runLoopNoCount_cons t a rest ds ht]
      have hb : rest.length + (stepDevices ds a.outcome).length ≤ 4294967295 := by
        have h1 := stepDevices_length_le ds a.outcome
        have : rest.length + 1 + ds.length ≤ 4294967295 := by
          simpa [List.length_cons] using h
        omega
      rw [ih (stepDevices ds a.outcome) hb]
    · rw [runLoop_cons_stop t 4294967295 a rest ds (by intro hc; exact ht hc.1),
          runLoopNoCount_cons_stop t a rest ds ht]

/-- C6: `start` with no timeout behaves exactly as with 5 seconds, with
no device count exactly as with the sentinel `u32::MAX as usize`
(4294967295), which is unbounded in the sense that on every trace of
fewer than 4294967295 attempts the loop coincides with the loop having
no count guard at all; after a successful single send the result is
precisely the collector's output (`sends = 1`). -/
theorem discover_start_defaults :
    (∀ (dc : Option Nat) (s : Except SockErr Nat) (tr : List Attempt),
      start none dc s tr = start (some 5) dc s tr) ∧
    (∀ (t : Option Nat) (s : Except SockErr Nat) (tr : List Attempt),
      start t none s tr = start t (some 4294967295) s tr) ∧
    (∀ (t dc n : Nat) (tr : List Attempt),
      start (some t) (some dc) (Except.ok n) tr =
        ⟨Except.ok ((runLoop t dc tr []).devices), 1,
         (runLoop t dc tr []).attempts⟩) ∧
    (∀ (t : Nat) (tr : List Attempt),
      tr.length ≤ 4294967295 →
      runLoop t 4294967295 tr [] = runLoopNoCount t tr []) := by
  refine ⟨?_, ?_, ?_, ?_⟩
  · intro dc s tr
    cases s <;> rfl
  · intro t s tr
    cases s <;> rfl
  · intro t dc n tr
    rfl
  · intro t tr h
    exact runLoop_eq_noCount t tr [] (by simpa using h)

/-- C6 witness: on a one-attempt trace the default-count loop equals the
count-free loop. -/
theorem discover_start_defaults_witness :
    runLoop 5 4294967295 [⟨0, RecvOutcome.received 7 [83, 111, 110, 111, 115]⟩] [] =
      runLoopNoCount 5 [⟨0, RecvOutcome.received 7 [83, 111, 110, 111, 115]⟩] [] :=
  discover_start_defaults.2.2.2 5
    [⟨0, RecvOutcome.received 7 [83, 111, 110, 111, 115]⟩] (by decide)

/-- C7: the outbound query is the exact fixed byte string (LF newlines,
no leading or trailing whitespace), and any successfully constructed
default session targets multicast group 239.255.255.250, port 1900. -/
theorem discover_search_message :
    player_search = "M-SEARCH * HTTP/1.1\nHOST: 239.255.255.250:1900\nMAN: \"ssdp:discover\"\nMX: 1\nST: urn:schemas-upnp-org:device:ZonePlayer:1" ∧
    trimChars player_search.data = player_search.data ∧
    parseSocketAddr "239.255.255.250:1900" = some ⟨239, 255, 255, 250, 1900⟩ ∧
    (∀ (env : SockEnv) (d : Discover) (n : Nat),
      new env = (Except.ok d, n) → d.multicast_addr = ⟨239, 255, 255, 250, 1900⟩) := by
  refine ⟨rfl, by decide, by decide, ?_⟩
  intro env d n h
  obtain ⟨nOk, sOk⟩ := env
  cases nOk with
  | false =>
    have h1 : (Except.error SockErr.osError : Except SockErr Discover) =
        Except.ok d := congrArg Prod.fst h
    exact Except.noConfusion h1
  | true =>
    cases sOk with
    | false =>
      have h1 : (Except.error SockErr.osError : Except SockErr Discover) =
          Except.ok d := congrArg Prod.fst h
      exact Except.noConfusion h1
    | true =>
      have h1 : Except.ok (⟨⟨239, 255, 255, 250, 1900⟩,
          ⟨AF_INET, SOCK_DGRAM, 0, [(IPPROTO_IP, IP_MULTICAST_TTL, 4)]⟩⟩ : Discover) =
          Except.ok d := congrArg Prod.fst h
      have h2 := Except.ok.inj h1
      rw [← h2]

/-- C7 witness: the concrete default session built when both OS calls
succeed carries exactly the default multicast address. -/
theorem discover_search_message_witness :
    (⟨⟨239, 255, 255, 250, 1900⟩,
      ⟨AF_INET, SOCK_DGRAM, 0, [(IPPROTO_IP, IP_MULTICAST_TTL, 4)]⟩⟩ :
        Discover).multicast_addr = ⟨239, 255, 255, 250, 1900⟩ :=
  discover_search_message.2.2.2 ⟨true, true⟩
    ⟨⟨239, 255, 255, 250, 1900⟩,
     ⟨AF_INET, SOCK_DGRAM, 0, [(IPPROTO_IP, IP_MULTICAST_TTL, 4)]⟩⟩ 1 rfl

/-- C8: an empty-payload datagram is ignored: the loop body leaves the
device list untouched, and in a full iteration the run proceeds to the
remaining attempts with the same devices, the same exit time, and one
more attempt counted, so the empty datagram neither contributes to
dedup bookkeeping nor terminates the loop early. -/
theorem discover_empty_payload_ignored :
    (∀ (ds : List Nat) (addr : Nat), processDatagram ds addr [] = ds) ∧
    (∀ (t dc m addr : Nat) (rest : List Attempt) (ds : List Nat),
      m / 1000 < t → ds.length < dc →
      runLoop t dc (⟨m, RecvOutcome.received addr []⟩ :: rest) ds =
        ⟨(runLoop t dc rest ds).devices, (runLoop t dc rest ds).attempts + 1,
         (runLoop t dc rest ds).exitMs⟩) := by
  constructor
  · intro ds addr
    exact processDatagram_skip ds addr [] rfl
  · intro t dc m addr rest ds h1 h2
    rw [runLoop_cons t dc ⟨m, RecvOutcome.received addr []⟩ rest ds ⟨h1, h2⟩]
    rfl

/-- C8 witness: an empty-payload reply from address 7 is processed as a
pure no-op iteration. -/
theorem discover_empty_payload_ignored_witness :
    runLoop 5 3 [⟨0, RecvOutcome.received 7 []⟩] [] =
      ⟨(runLoop 5 3 [] []).devices, (runLoop 5 3 [] []).attempts + 1,
       (runLoop 5 3 [] []).exitMs⟩ :=
  discover_empty_payload_ignored.2 5 3 0 7 [] [] (by decide) (by decide)

lemma parseSocketAddr_not_an_address : parseSocketAddr "not-an-address" = none := by
  decide

/-- C9: the override string `"not-an-address"` does not parse, so the
construction flow fails with the `InvalidData` error (`"Couldn't parse
socket address"`, the spec's `InvalidAddress`) before any socket is
created (creation count 0), whatever the OS would have answered; no
session value is produced. -/
theorem discover_malformed_address :
    parseSocketAddr "not-an-address" = none ∧
    (∀ env : SockEnv, newFromStr "not-an-address" env =
      (Except.error (SockErr.invalidData "Couldn't parse socket address"), 0)) := by
  constructor
  · exact parseSocketAddr_not_an_address
  · intro env
    simp only [newFromStr, parseSocketAddr_not_an_address]

/-- C10: with a timeout of 0 seconds, or a device count of 0, and a
successful send, `start` returns `Ok` with the empty list, the query
sent exactly once and no receive attempt made, on every trace. -/
theorem discover_zero_bounds :
    (∀ (dc : Option Nat) (n : Nat) (tr : List Attempt),
      start (some 0) dc (Except.ok n) tr = ⟨Except.ok [], 1, 0⟩) ∧
    (∀ (t : Option Nat) (n : Nat) (tr : List Attempt),
      start t (some 0) (Except.ok n) tr = ⟨Except.ok [], 1, 0⟩) := by
  constructor
  · intro dc n tr
    cases tr with
    | nil => rfl
    | cons a rest =>
      have hstop : runLoop 0 (dc.getD 4294967295) (a :: rest) [] =
          ⟨[], 0, some a.checkMs⟩ :=
        runLoop_cons_stop 0 _ a rest []
          (by intro hc; exact absurd hc.1 (by omega))
      simp [start, hstop]
  · intro t n tr
    cases tr with
    | nil => rfl
    | cons a rest =>
      have hstop : runLoop (t.getD 5) 0 (a :: rest) [] =
          ⟨[], 0, some a.checkMs⟩ :=
        runLoop_cons_stop _ 0 a rest []
          (by intro hc; exact absurd hc.2 (by decide))
      simp [start, hstop]

end SonosDiscovery
